import Mathlib

/-!
Verification development for the card-architect format-normalization and
conversion engine.  Pure functions from the repository are embedded
shallowly; code of the repository that is absent from the source tree
(the normalizer, the dialect serializers and the binary builders, of which
only tests and callers survive) is modelled from the specification, as
marked in the corresponding doc comments.
-/

namespace CardArchitect

/-- JSON values.  Numbers are modelled as rationals, which is exact for the
integral and decimal values the card formats carry. -/
inductive Json where
  | null : Json
  | boolean : Bool → Json
  | num : Rat → Json
  | str : String → Json
  | arr : List Json → Json
  | obj : List (String × Json) → Json

/-- First-match lookup in a JSON object field list (JS object semantics). -/
def lookupKey : List (String × Json) → String → Option Json
  | [], _ => none
  | (k2, v) :: rest, k => if k2 = k then some v else lookupKey rest k

/-! ## ZIP utility functions (embedded from the ZIP utility source file) -/

/-- ZIP local file header signature PK 03 04, from `ZIP_SIGNATURE`. -/
def zipSignature : List Nat := [0x50, 0x4b, 0x03, 0x04]

/-- Buffers are byte lists.  `Buffer.indexOf(needle)`: index of the first
occurrence of the byte sequence, as an option. -/
def seqIndexOf : List Nat → List Nat → Option Nat
  | [], sig => if sig.isPrefixOf [] then some 0 else none
  | b :: bs, sig =>
      if sig.isPrefixOf (b :: bs) then some 0
      else (seqIndexOf bs sig).map (· + 1)

/-- `getZipOffset`: `buffer.indexOf(ZIP_SIGNATURE)`, -1 when absent. -/
def getZipOffset (buffer : List Nat) : Int :=
  match seqIndexOf buffer zipSignature with
  | some n => (n : Int)
  | none => -1

/-- `isZipBuffer`: `buffer.indexOf(ZIP_SIGNATURE) >= 0`. -/
def isZipBuffer (buffer : List Nat) : Bool :=
  getZipOffset buffer ≥ 0

/-- `findZipStart`: drop the SFX stub when the signature sits at a positive
offset, otherwise return the buffer unchanged. -/
def findZipStart (buffer : List Nat) : List Nat :=
  match seqIndexOf buffer zipSignature with
  | some n => if 0 < n then buffer.drop n else buffer
  | none => buffer

/-- The signature occurs at offset `i` of the buffer. -/
def sigAt (buffer : List Nat) (i : Nat) : Bool :=
  zipSignature.isPrefixOf (buffer.drop i)

theorem seqIndexOf_some_matches (b sig : List Nat) (n : Nat)
    (h : seqIndexOf b sig = some n) : sig.isPrefixOf (b.drop n) = true := by
  induction b generalizing n with
  | nil =>
      unfold seqIndexOf at h
      split at h
      · rename_i hp
        cases h
        simpa using hp
      · cases h
  | cons x xs ih =>
      unfold seqIndexOf at h
      split at h
      · rename_i hp
        cases h
        simpa using hp
      · rcases Option.map_eq_some'.mp h with ⟨m, hm, rfl⟩
        simpa using ih m hm

theorem seqIndexOf_some_first (b sig : List Nat) (n : Nat)
    (h : seqIndexOf b sig = some n) :
    ∀ m, m < n → sig.isPrefixOf (b.drop m) = false := by
  induction b generalizing n with
  | nil =>
      unfold seqIndexOf at h
      split at h
      · cases h; omega
      · cases h
  | cons x xs ih =>
      unfold seqIndexOf at h
      split at h
      · cases h; omega
      · rename_i hp
        rcases Option.map_eq_some'.mp h with ⟨k, hk, rfl⟩
        intro m hm
        cases m with
        | zero => simpa using Bool.of_not_eq_true hp
        | succ m2 =>
            have := ih k hk m2 (by omega)
            simpa using this

theorem seqIndexOf_none (b sig : List Nat)
    (h : seqIndexOf b sig = none) :
    ∀ i, sig.isPrefixOf (b.drop i) = false := by
  induction b with
  | nil =>
      intro i
      unfold seqIndexOf at h
      split at h
      · cases h
      · rename_i hp
        simpa using Bool.of_not_eq_true hp
  | cons x xs ih =>
      intro i
      unfold seqIndexOf at h
      split at h
      · cases h
      · rename_i hp
        cases i with
        | zero => simpa using Bool.of_not_eq_true hp
        | succ j =>
            have hnone : seqIndexOf xs sig = none := by
              cases hx : seqIndexOf xs sig with
              | none => rfl
              | some k => rw [hx] at h; simp at h
            simpa using ih hnone j


theorem sigAt_of_seqIndexOf (b : List Nat) (n : Nat)
    (hx : seqIndexOf b zipSignature = some n) : sigAt b n = true :=
  seqIndexOf_some_matches b zipSignature n hx

theorem sigAt_first_of_seqIndexOf (b : List Nat) (n : Nat)
    (hx : seqIndexOf b zipSignature = some n) :
    ∀ m, m < n → sigAt b m = false :=
  seqIndexOf_some_first b zipSignature n hx

theorem sigAt_none_of_seqIndexOf (b : List Nat)
    (hx : seqIndexOf b zipSignature = none) :
    ∀ i, sigAt b i = false :=
  seqIndexOf_none b zipSignature hx

/-- C6: ZIP detection anywhere in the buffer.  `isZipBuffer` is true exactly
when the 4-byte signature 50 4B 03 04 occurs at some offset; `getZipOffset`
returns the offset of the first occurrence (or -1 when absent);
`findZipStart` drops the prefix before the first occurrence when that
occurrence is at a positive offset and returns the buffer unchanged when the
signature is absent or already at offset 0. -/
theorem zip_detection_anywhere (b : List Nat) :
    (isZipBuffer b = true ↔ ∃ i, sigAt b i = true) ∧
    (∀ n : Nat, getZipOffset b = (n : Int) →
        sigAt b n = true ∧ ∀ m, m < n → sigAt b m = false) ∧
    (getZipOffset b = -1 ↔ ∀ i, sigAt b i = false) ∧
    (getZipOffset b = -1 → findZipStart b = b) ∧
    (getZipOffset b = 0 → findZipStart b = b) ∧
    (0 < getZipOffset b → findZipStart b = b.drop (getZipOffset b).toNat) := by
  cases hx : seqIndexOf b zipSignature with
  | none =>
      have hnone := sigAt_none_of_seqIndexOf b hx
      refine ⟨?_, ?_, ?_, ?_, ?_, ?_⟩
      · constructor
        · intro h
          simp [isZipBuffer, getZipOffset, hx] at h
        · rintro ⟨i, hi⟩
          rw [hnone i] at hi
          cases hi
      · intro n hn
        simp [getZipOffset, hx] at hn
      · constructor
        · intro _
          exact hnone
        · intro _
          simp [getZipOffset, hx]
      · intro _
        simp [findZipStart, hx]
      · intro h
        simp [getZipOffset, hx] at h
      · intro h
        simp [getZipOffset, hx] at h
  | some k =>
      have hmatch := sigAt_of_seqIndexOf b k hx
      have hfirst := sigAt_first_of_seqIndexOf b k hx
      refine ⟨?_, ?_, ?_, ?_, ?_, ?_⟩
      · constructor
        · intro _
          exact ⟨k, hmatch⟩
        · intro _
          simp [isZipBuffer, getZipOffset, hx]
      · intro n hn
        simp [getZipOffset, hx] at hn
        subst hn
        exact ⟨hmatch, hfirst⟩
      · constructor
        · intro h
          simp [getZipOffset, hx] at h
        · intro h
          rw [h k] at hmatch
          cases hmatch
      · intro h
        simp [getZipOffset, hx] at h
      · intro h
        simp [getZipOffset, hx] at h
        subst h
        simp [findZipStart, hx]
      · intro h
        simp [getZipOffset, hx] at h ⊢
        have hk : 0 < k := by exact_mod_cast h
        simp [findZipStart, hx, hk]

/-- Witness for C6 on a concrete SFX-style buffer with the signature at
offset 1. -/
theorem zip_detection_anywhere_witness :
    (sigAt [7, 0x50, 0x4b, 0x03, 0x04] 1 = true ∧
      ∀ m, m < 1 → sigAt [7, 0x50, 0x4b, 0x03, 0x04] m = false) ∧
    findZipStart [7, 0x50, 0x4b, 0x03, 0x04] = [0x50, 0x4b, 0x03, 0x04] := by
  constructor
  · exact (zip_detection_anywhere [7, 0x50, 0x4b, 0x03, 0x04]).2.1 1 (by decide)
  · have h := (zip_detection_anywhere [7, 0x50, 0x4b, 0x03, 0x04]).2.2.2.2.2
      (by decide)
    simpa using h

/-! ## Card validation (embedded from `apps/api/src/utils/validation.ts`) -/

inductive Severity where
  | error : Severity
  | warning : Severity
deriving DecidableEq

structure ValidationError where
  message : String
  severity : Severity
deriving DecidableEq

structure CardValidationResult where
  valid : Bool
  errors : List ValidationError
deriving DecidableEq

def mkErr (m : String) (s : Severity) : ValidationError := ⟨m, s⟩

/-- JS truthiness test on a JSON value (`!data`). -/
def jsFalsy : Json → Bool
  | .null => true
  | .boolean b => !b
  | .num q => q = 0
  | .str s => s = ""
  | .arr _ => false
  | .obj _ => false

/-- JS `typeof v === "object"` (true for null, arrays and objects). -/
def jsTypeofObj : Json → Bool
  | .null => true
  | .arr _ => true
  | .obj _ => true
  | _ => false

/-- JS `k in v` for plain objects; false on every non-object here, matching
the keys the validator queries. -/
def hasField : Json → String → Bool
  | .obj o, k => (lookupKey o k).isSome
  | _, _ => false

/-- JS property access `v[k]` restricted to objects. -/
def getFieldJs : Json → String → Option Json
  | .obj o, k => lookupKey o k
  | _, _ => none

def isStringJs : Option Json → Bool
  | some (.str _) => true
  | _ => false

def isStrJson : Json → Bool
  | .str _ => true
  | _ => false

/-- Required-field check of the validator: missing field or non-string value
is an error-severity finding. -/
def requiredFieldCheck (cardData : Json) (pre f : String) : List ValidationError :=
  if !(hasField cardData f) then
    [mkErr ("Missing required field: " ++ pre ++ f) .error]
  else if !(isStringJs (getFieldJs cardData f)) then
    [mkErr ("Field " ++ pre ++ f ++ " must be a string") .error]
  else []

/-- Optional-string-field check: present but non-string is a warning. -/
def optionalFieldCheck (cardData : Json) (pre f : String) : List ValidationError :=
  if hasField cardData f && !(isStringJs (getFieldJs cardData f)) then
    [mkErr ("Field " ++ pre ++ f ++ " must be a string if present") .warning]
  else []

/-- `tags` check of validateV2: non-array or non-string elements warn. -/
def tagsCheckV2 (cardData : Json) : List ValidationError :=
  if hasField cardData "tags" then
    match getFieldJs cardData "tags" with
    | some (.arr xs) =>
        if xs.all isStrJson then []
        else [mkErr "All tags must be strings" .warning]
    | _ => [mkErr "Field tags must be an array" .warning]
  else []

/-- `alternate_greetings` check of validateV2. -/
def altGreetCheckV2 (cardData : Json) : List ValidationError :=
  if hasField cardData "alternate_greetings" then
    match getFieldJs cardData "alternate_greetings" with
    | some (.arr xs) =>
        if xs.all isStrJson then []
        else [mkErr "All alternate_greetings must be strings" .warning]
    | _ => [mkErr "Field alternate_greetings must be an array" .warning]
  else []

/-- `alternate_greetings` check of validateV3 (array check only). -/
def altGreetCheckV3 (cardData : Json) : List ValidationError :=
  if hasField cardData "alternate_greetings" then
    match getFieldJs cardData "alternate_greetings" with
    | some (.arr _) => []
    | _ => [mkErr "Field alternate_greetings must be an array" .warning]
  else []

/-- `character_book` basic check: non-object (including null) warns; inside
an object, a non-array `entries` warns.  A JS array passes the typeof check
and its `entries` lookup misses, yielding no finding. -/
def bookCheck (cardData : Json) (pre : String) : List ValidationError :=
  if hasField cardData "character_book" then
    match getFieldJs cardData "character_book" with
    | some (.obj bo) =>
        (match lookupKey bo "entries" with
         | some (.arr _) => []
         | some _ => [mkErr (pre ++ "character_book.entries must be an array") .warning]
         | none => [])
    | some (.arr _) => []
    | _ => [mkErr ("Field " ++ pre ++ "character_book must be an object") .warning]
  else []

def requiredV2Fields : List String :=
  ["name", "description", "personality", "scenario", "first_mes", "mes_example"]

def optionalV2Fields : List String :=
  ["creator", "character_version", "creator_notes", "system_prompt",
   "post_history_instructions"]

/-- Field checks of validateV2 against the chosen field source. -/
def validateV2Body (cardData : Json) : CardValidationResult :=
  let errors :=
    (requiredV2Fields.map (requiredFieldCheck cardData "")).flatten ++
    (optionalV2Fields.map (optionalFieldCheck cardData "")).flatten ++
    tagsCheckV2 cardData ++ altGreetCheckV2 cardData ++ bookCheck cardData ""
  ⟨!(errors.any fun e => e.severity = .error), errors⟩

/-- `validateV2` from `validation.ts`: wrapped when `data` is a truthy
JS object, unwrapped when a `name` field exists, invalid otherwise. -/
def validateV2 (j : Json) : CardValidationResult :=
  if jsFalsy j || !(jsTypeofObj j) then
    ⟨false, [mkErr "Data must be an object" .error]⟩
  else
    match getFieldJs j "data" with
    | some (.obj o) => validateV2Body (.obj o)
    | some (.arr xs) => validateV2Body (.arr xs)
    | _ =>
        if hasField j "name" then validateV2Body j
        else ⟨false, [mkErr "Card must have either a data object or name field" .error]⟩

def requiredV3Fields : List String :=
  ["name", "description", "personality", "scenario", "first_mes", "mes_example",
   "creator", "character_version"]

def optionalV3Fields : List String :=
  ["creator_notes", "system_prompt", "post_history_instructions"]

/-- Required-array check of validateV3 (`tags`, `group_only_greetings`). -/
def requiredArrayCheck (innerData : Json) (f : String) : List ValidationError :=
  if !(hasField innerData f) then
    [mkErr ("Missing required field: data." ++ f) .error]
  else
    match getFieldJs innerData f with
    | some (.arr _) => []
    | _ => [mkErr ("Field data." ++ f ++ " must be an array") .error]

/-- Spec and spec_version checks of validateV3. -/
def specChecksV3 (j : Json) : List ValidationError :=
  (match getFieldJs j "spec" with
   | some (.str s) =>
       if s = "chara_card_v3" then []
       else [mkErr "Field spec must be chara_card_v3" .error]
   | _ => [mkErr "Field spec must be chara_card_v3" .error]) ++
  (match getFieldJs j "spec_version" with
   | some (.str s) =>
       if s = "" then [mkErr "Field spec_version is required and must be a string" .error]
       else []
   | _ => [mkErr "Field spec_version is required and must be a string" .error])

/-- Inner-data checks of validateV3. -/
def validateV3Body (j innerData : Json) : CardValidationResult :=
  let errors :=
    specChecksV3 j ++
    (requiredV3Fields.map (requiredFieldCheck innerData "data.")).flatten ++
    requiredArrayCheck innerData "tags" ++
    requiredArrayCheck innerData "group_only_greetings" ++
    (optionalV3Fields.map (optionalFieldCheck innerData "data.")).flatten ++
    altGreetCheckV3 innerData ++ bookCheck innerData "data."
  ⟨!(errors.any fun e => e.severity = .error), errors⟩

/-- `validateV3` from `validation.ts`. -/
def validateV3 (j : Json) : CardValidationResult :=
  if jsFalsy j || !(jsTypeofObj j) then
    ⟨false, [mkErr "Data must be an object" .error]⟩
  else
    match getFieldJs j "data" with
    | some (.obj o) => validateV3Body j (.obj o)
    | some (.arr xs) => validateV3Body j (.arr xs)
    | _ =>
        ⟨false, specChecksV3 j ++
          [mkErr "Field data is required and must be an object" .error]⟩

/-- A JS primitive (not an object and not an array). -/
def jsIsPrimitive : Json → Bool
  | .obj _ => false
  | .arr _ => false
  | _ => true

theorem validateV2_valid_eq (j : Json) :
    (validateV2 j).valid =
      !((validateV2 j).errors.any fun e => e.severity = .error) := by
  unfold validateV2
  split
  · simp [mkErr]
  · split
    · rfl
    · rfl
    · split
      · rfl
      · simp [mkErr]

theorem validateV3_valid_eq (j : Json) :
    (validateV3 j).valid =
      !((validateV3 j).errors.any fun e => e.severity = .error) := by
  unfold validateV3
  split
  · simp [mkErr]
  · split
    · rfl
    · rfl
    · simp [mkErr]

theorem validate_primitive_invalid (j : Json) (h : jsIsPrimitive j = true) :
    (validateV2 j).valid = false ∧ (validateV3 j).valid = false := by
  have hc : (jsFalsy j || !(jsTypeofObj j)) = true := by
    cases j with
    | null => rfl
    | boolean b => cases b <;> rfl
    | num q => simp [jsFalsy, jsTypeofObj]
    | str s => simp [jsFalsy, jsTypeofObj]
    | arr xs => simp [jsIsPrimitive] at h
    | obj o => simp [jsIsPrimitive] at h
  constructor
  · unfold validateV2
    rw [if_pos hc]
  · unfold validateV3
    rw [if_pos hc]

/-- C10: validator totality and validity criterion.  `validateV2` and
`validateV3` are total functions that return `valid := false` on every
non-object input, the returned `valid` flag is true exactly when no
accumulated finding has severity error, and warning-only findings never make
the result invalid. -/
theorem validator_totality_and_validity (j : Json) :
    ((validateV2 j).valid =
        !((validateV2 j).errors.any fun e => e.severity = .error)) ∧
    ((validateV3 j).valid =
        !((validateV3 j).errors.any fun e => e.severity = .error)) ∧
    (jsIsPrimitive j = true →
        (validateV2 j).valid = false ∧ (validateV3 j).valid = false) ∧
    ((validateV2 j).errors.all (fun e => e.severity = .warning) = true →
        (validateV2 j).valid = true) ∧
    ((validateV3 j).errors.all (fun e => e.severity = .warning) = true →
        (validateV3 j).valid = true) := by
  refine ⟨validateV2_valid_eq j, validateV3_valid_eq j,
          validate_primitive_invalid j, ?_, ?_⟩
  · intro h
    rw [validateV2_valid_eq j]
    have hall := List.all_eq_true.mp h
    have : ((validateV2 j).errors.any fun e => e.severity = .error) = false := by
      rw [List.any_eq_false]
      intro e he
      have hw := hall e he
      simp at hw ⊢
      rw [hw]
      intro hcon
      cases hcon
    rw [this]
    rfl
  · intro h
    rw [validateV3_valid_eq j]
    have hall := List.all_eq_true.mp h
    have : ((validateV3 j).errors.any fun e => e.severity = .error) = false := by
      rw [List.any_eq_false]
      intro e he
      have hw := hall e he
      simp at hw ⊢
      rw [hw]
      intro hcon
      cases hcon
    rw [this]
    rfl

/-- Witness for C10: a primitive input is reported invalid without raising,
and a card whose only finding is a warning (non-array `tags`) stays valid. -/
theorem validator_totality_and_validity_witness :
    ((validateV2 (.num 3)).valid = false ∧ (validateV3 (.num 3)).valid = false) ∧
    (validateV2 (.obj [("name", .str "A"), ("description", .str ""),
        ("personality", .str ""), ("scenario", .str ""), ("first_mes", .str ""),
        ("mes_example", .str ""), ("tags", .num 7)])).valid = true := by
  constructor
  · exact (validator_totality_and_validity (.num 3)).2.2.1 (by decide)
  · exact (validator_totality_and_validity (.obj [("name", .str "A"),
      ("description", .str ""), ("personality", .str ""), ("scenario", .str ""),
      ("first_mes", .str ""), ("mes_example", .str ""),
      ("tags", .num 7)])).2.2.2.1 (by decide)

/-! ## Canonical card model and normalizer

Modelled from the spec: the normalizer (`normalizeCardData`, embedded in the
API import routes) and the dialect serializers are part of this repository
but absent from the available source tree, so the definitions below follow
sections 3, 4.2 and 4.3 of the specification. -/

/-- Value of an optional field lifted to JSON; absent options are emitted as
JSON null, which the normalizer treats identically to an absent field. -/
def optStrJson : Option String → Json
  | none => .null
  | some s => .str s

def optNumJson : Option Rat → Json
  | none => .null
  | some q => .num q

def optBoolJson : Option Bool → Json
  | none => .null
  | some b => .boolean b

def jsonAsStr : Json → Option String
  | .str s => some s
  | _ => none

/-- Read an optional string out of a looked-up JSON value. -/
def jStr : Option Json → Option String
  | some (.str s) => some s
  | _ => none

def jStrD (v : Option Json) (dflt : String) : String :=
  (jStr v).getD dflt

def jNum : Option Json → Option Rat
  | some (.num q) => some q
  | _ => none

def jBool : Option Json → Option Bool
  | some (.boolean b) => some b
  | _ => none

def jBoolD (v : Option Json) (dflt : Bool) : Bool :=
  (jBool v).getD dflt

/-- Read an optional string array; non-string elements are dropped. -/
def jStrList : Option Json → Option (List String)
  | some (.arr xs) => some (xs.filterMap jsonAsStr)
  | _ => none

def optStrListJson : Option (List String) → Json
  | none => .null
  | some l => .arr (l.map .str)

def jArrD : Option Json → List Json
  | some (.arr xs) => xs
  | _ => []

def jObjD : Option Json → List (String × Json)
  | some (.obj o) => o
  | _ => []

theorem jStr_optStrJson (o : Option String) : jStr (some (optStrJson o)) = o := by
  cases o <;> rfl

theorem jNum_optNumJson (o : Option Rat) : jNum (some (optNumJson o)) = o := by
  cases o <;> rfl

theorem jBool_optBoolJson (o : Option Bool) : jBool (some (optBoolJson o)) = o := by
  cases o <;> rfl

theorem filterMap_jsonAsStr_map_str (l : List String) :
    (l.map Json.str).filterMap jsonAsStr = l := by
  induction l with
  | nil => rfl
  | cons x xs ih => simp [jsonAsStr, ih]

theorem jStrList_optStrListJson (o : Option (List String)) :
    jStrList (some (optStrListJson o)) = o := by
  cases o with
  | none => rfl
  | some l =>
      show some ((l.map Json.str).filterMap jsonAsStr) = some l
      rw [filterMap_jsonAsStr_map_str]

/-- Canonical lorebook entry position. -/
inductive BookPosition where
  | before_char : BookPosition
  | after_char : BookPosition
deriving DecidableEq

def posToString : BookPosition → String
  | .before_char => "before_char"
  | .after_char => "after_char"

/-- Modelled from the spec (section 4.2 step 5): position field coercion.
Numeric 0 maps to before_char; an integral value of at least 1 maps to
after_char; a string already holding a canonical enum value passes through;
every other value defaults to after_char with a non-fatal warning.  An
absent field takes the default with no warning. -/
def coercePosition : Option Json → BookPosition × List String
  | some (.num q) =>
      if q = 0 then (.before_char, [])
      else if q.den = 1 ∧ 1 ≤ q then (.after_char, [])
      else (.after_char, ["position: unrecognized numeric value"])
  | some (.str s) =>
      if s = "before_char" then (.before_char, [])
      else if s = "after_char" then (.after_char, [])
      else (.after_char, ["position: unrecognized string value"])
  | some _ => (.after_char, ["position: unrecognized value"])
  | none => (.after_char, [])

/-- Canonical lorebook entry (spec section 3). -/
structure BookEntry where
  keys : List String
  secondary_keys : List String
  content : String
  enabled : Bool
  priority : Option Rat
  insertion_order : Option Rat
  probability : Option Rat
  selective : Bool
  constant : Bool
  position : BookPosition
  extensions : List (String × Json)

/-- Canonical lorebook (spec section 3). -/
structure CharacterBook where
  name : Option String
  description : Option String
  scan_depth : Option Rat
  token_budget : Option Rat
  recursive_scanning : Option Bool
  entries : List BookEntry

/-- Canonical asset descriptor (spec section 3). -/
structure AssetDesc where
  kind : String
  name : String
  uri : String
  ext : String

inductive SpecTag where
  | v2 : SpecTag
  | v3 : SpecTag
deriving DecidableEq

/-- Canonical Card (spec section 3).  Core fields are plain strings defaulted
to the empty string; optional fields keep their presence; v3-only fields are
empty on v2 cards.  Timestamps are kept so that the import-time unit
coercion is observable. -/
structure CanonicalCard where
  spec : SpecTag
  name : String
  description : String
  personality : String
  scenario : String
  first_mes : String
  mes_example : String
  creator : String
  character_version : String
  creator_notes : Option String
  system_prompt : Option String
  post_history_instructions : Option String
  tags : Option (List String)
  alternate_greetings : Option (List String)
  group_only_greetings : List String
  character_book : Option CharacterBook
  assets : List AssetDesc
  creation_date : Option Rat
  modification_date : Option Rat
  extensions : List (String × Json)

/-- Modelled from the spec: lorebook entry normalization.  Missing optional
fields take documented defaults; entry-level null extensions become the
empty map (section 4.2 step 6). -/
def parseEntry (j : Json) : BookEntry :=
  let o := jObjD (some j)
  { keys := (jStrList (lookupKey o "keys")).getD []
    secondary_keys := (jStrList (lookupKey o "secondary_keys")).getD []
    content := jStrD (lookupKey o "content") ""
    enabled := jBoolD (lookupKey o "enabled") true
    priority := jNum (lookupKey o "priority")
    insertion_order := jNum (lookupKey o "insertion_order")
    probability := jNum (lookupKey o "probability")
    selective := jBoolD (lookupKey o "selective") false
    constant := jBoolD (lookupKey o "constant") false
    position := (coercePosition (lookupKey o "position")).1
    extensions := jObjD (lookupKey o "extensions") }

/-- Non-fatal warnings collected while normalizing one lorebook entry. -/
def entryWarnings (j : Json) : List String :=
  (coercePosition (lookupKey (jObjD (some j)) "position")).2

/-- Modelled from the spec: serialization of a canonical lorebook entry. -/
def serializeEntry (e : BookEntry) : Json :=
  .obj [("keys", .arr (e.keys.map .str)),
        ("secondary_keys", .arr (e.secondary_keys.map .str)),
        ("content", .str e.content),
        ("enabled", .boolean e.enabled),
        ("priority", optNumJson e.priority),
        ("insertion_order", optNumJson e.insertion_order),
        ("probability", optNumJson e.probability),
        ("selective", .boolean e.selective),
        ("constant", .boolean e.constant),
        ("position", .str (posToString e.position)),
        ("extensions", .obj e.extensions)]

/-- Modelled from the spec: lorebook normalization; a null or non-object
book is treated as no book. -/
def parseBook : Json → Option CharacterBook
  | .obj o => some
      { name := jStr (lookupKey o "name")
        description := jStr (lookupKey o "description")
        scan_depth := jNum (lookupKey o "scan_depth")
        token_budget := jNum (lookupKey o "token_budget")
        recursive_scanning := jBool (lookupKey o "recursive_scanning")
        entries := (jArrD (lookupKey o "entries")).map parseEntry }
  | _ => none

/-- Modelled from the spec: serialization of a canonical lorebook. -/
def serializeBook (b : CharacterBook) : Json :=
  .obj [("name", optStrJson b.name),
        ("description", optStrJson b.description),
        ("scan_depth", optNumJson b.scan_depth),
        ("token_budget", optNumJson b.token_budget),
        ("recursive_scanning", optBoolJson b.recursive_scanning),
        ("entries", .arr (b.entries.map serializeEntry))]

/-- Modelled from the spec: asset descriptor normalization. -/
def parseAsset (j : Json) : AssetDesc :=
  let o := jObjD (some j)
  { kind := jStrD (lookupKey o "type") "custom"
    name := jStrD (lookupKey o "name") ""
    uri := jStrD (lookupKey o "uri") ""
    ext := jStrD (lookupKey o "ext") "png" }

/-- Modelled from the spec: serialization of a canonical asset descriptor. -/
def serializeAsset (a : AssetDesc) : Json :=
  .obj [("type", .str a.kind), ("name", .str a.name),
        ("uri", .str a.uri), ("ext", .str a.ext)]

/-- Modelled from the spec (section 4.2 step 4): the Unix-timestamp unit
heuristic.  Values above 10,000,000,000 are treated as milliseconds and
divided by 1000; values at or below the threshold pass through. -/
def coerceTimestamp (t : Rat) : Rat :=
  if 10000000000 < t then t / 1000 else t

/-- Modelled from the spec (section 4.2 step 3): spec string normalization.
The two canonical identifiers are recognized; anything else defaults to v2,
with a warning when an unrecognized value is present. -/
def specFromRoot (root : List (String × Json)) : SpecTag × List String :=
  match lookupKey root "spec" with
  | some (.str s) =>
      if s = "chara_card_v3" then (.v3, [])
      else if s = "chara_card_v2" then (.v2, [])
      else (.v2, ["spec: unrecognized value"])
  | some _ => (.v2, ["spec: unrecognized value"])
  | none => (.v2, [])

/-- Modelled from the spec: field extraction into the canonical card.
V3-only fields (group_only_greetings, assets, timestamps) are read only when
the spec tag is v3; v3 required fields are backfilled with empty defaults
(section 4.2 step 7). -/
def buildCard (tag : SpecTag) (o : List (String × Json)) : CanonicalCard :=
  { spec := tag
    name := jStrD (lookupKey o "name") ""
    description := jStrD (lookupKey o "description") ""
    personality := jStrD (lookupKey o "personality") ""
    scenario := jStrD (lookupKey o "scenario") ""
    first_mes := jStrD (lookupKey o "first_mes") ""
    mes_example := jStrD (lookupKey o "mes_example") ""
    creator := jStrD (lookupKey o "creator") ""
    character_version := jStrD (lookupKey o "character_version") ""
    creator_notes := jStr (lookupKey o "creator_notes")
    system_prompt := jStr (lookupKey o "system_prompt")
    post_history_instructions := jStr (lookupKey o "post_history_instructions")
    tags :=
      match tag with
      | .v3 => some ((jStrList (lookupKey o "tags")).getD [])
      | .v2 => jStrList (lookupKey o "tags")
    alternate_greetings := jStrList (lookupKey o "alternate_greetings")
    group_only_greetings :=
      match tag with
      | .v3 => (jStrList (lookupKey o "group_only_greetings")).getD []
      | .v2 => []
    character_book := (lookupKey o "character_book").bind parseBook
    assets :=
      match tag with
      | .v3 => (jArrD (lookupKey o "assets")).map parseAsset
      | .v2 => []
    creation_date :=
      match tag with
      | .v3 => (jNum (lookupKey o "creation_date")).map coerceTimestamp
      | .v2 => none
    modification_date :=
      match tag with
      | .v3 => (jNum (lookupKey o "modification_date")).map coerceTimestamp
      | .v2 => none
    extensions := jObjD (lookupKey o "extensions") }

/-- Warnings from normalizing the lorebook of a field source. -/
def bookWarnings (o : List (String × Json)) : List String :=
  match lookupKey o "character_book" with
  | none => []
  | some .null => []
  | some (.obj bo) =>
      ((jArrD (lookupKey bo "entries")).map entryWarnings).flatten
  | some _ => ["character_book: not an object"]

/-- Wrapped-payload detection: the inner object of a top-level `data`
object, when there is one. -/
def wrappedSource (root : List (String × Json)) : Option (List (String × Json)) :=
  match lookupKey root "data" with
  | some (.obj o) => some o
  | _ => none

/-- Modelled from the spec (section 4.2): the normalizer.  A payload with a
top-level `data` object is wrapped; else a payload with a top-level `name`
is the field source itself (this also covers the legacy hybrid of step 8);
anything else is the fatal UnrecognizedCardShape error. -/
def normalizeCard (j : Json) : Except String (CanonicalCard × List String) :=
  match j with
  | .obj root =>
      (match wrappedSource root with
       | some src =>
           .ok (buildCard (specFromRoot root).1 src,
                (specFromRoot root).2 ++ bookWarnings src)
       | none =>
           match lookupKey root "name" with
           | some _ =>
               .ok (buildCard (specFromRoot root).1 root,
                    (specFromRoot root).2 ++ bookWarnings root)
           | none => .error "UnrecognizedCardShape")
  | _ => .error "UnrecognizedCardShape"

/-- The canonical card produced by the normalizer, when it succeeds. -/
def normCard (j : Json) : Option CanonicalCard :=
  match normalizeCard j with
  | .ok (d, _) => some d
  | .error _ => none

/-- The warnings produced by the normalizer, when it succeeds. -/
def normWarnings (j : Json) : Option (List String) :=
  match normalizeCard j with
  | .ok (_, w) => some w
  | .error _ => none

/-- Modelled from the spec (section 4.3): the CCv2 serializer.  All
canonical fields meaningful to v2 are emitted, absent optionals as null. -/
def serializeDataV2 (d : CanonicalCard) : List (String × Json) :=
  [("name", .str d.name),
   ("description", .str d.description),
   ("personality", .str d.personality),
   ("scenario", .str d.scenario),
   ("first_mes", .str d.first_mes),
   ("mes_example", .str d.mes_example),
   ("creator", .str d.creator),
   ("character_version", .str d.character_version),
   ("creator_notes", optStrJson d.creator_notes),
   ("system_prompt", optStrJson d.system_prompt),
   ("post_history_instructions", optStrJson d.post_history_instructions),
   ("tags", optStrListJson d.tags),
   ("alternate_greetings", optStrListJson d.alternate_greetings),
   ("character_book",
      match d.character_book with
      | some b => serializeBook b
      | none => .null),
   ("extensions", .obj d.extensions)]

def serializeV2 (d : CanonicalCard) : Json :=
  .obj [("spec", .str "chara_card_v2"), ("spec_version", .str "2.0"),
        ("data", .obj (serializeDataV2 d))]

/-- Modelled from the spec (section 4.3): the CCv3 serializer.  Required v3
arrays and strings are always emitted (defaulted when empty); assets and
timestamps are included. -/
def serializeDataV3 (d : CanonicalCard) : List (String × Json) :=
  [("name", .str d.name),
   ("description", .str d.description),
   ("personality", .str d.personality),
   ("scenario", .str d.scenario),
   ("first_mes", .str d.first_mes),
   ("mes_example", .str d.mes_example),
   ("creator", .str d.creator),
   ("character_version", .str d.character_version),
   ("creator_notes", optStrJson d.creator_notes),
   ("system_prompt", optStrJson d.system_prompt),
   ("post_history_instructions", optStrJson d.post_history_instructions),
   ("tags", .arr ((d.tags.getD []).map .str)),
   ("alternate_greetings", optStrListJson d.alternate_greetings),
   ("group_only_greetings", .arr (d.group_only_greetings.map .str)),
   ("character_book",
      match d.character_book with
      | some b => serializeBook b
      | none => .null),
   ("assets", .arr (d.assets.map serializeAsset)),
   ("creation_date", optNumJson d.creation_date),
   ("modification_date", optNumJson d.modification_date),
   ("extensions", .obj d.extensions)]

def serializeV3 (d : CanonicalCard) : Json :=
  .obj [("spec", .str "chara_card_v3"), ("spec_version", .str "3.0"),
        ("data", .obj (serializeDataV3 d))]

/-- Serialize in the dialect the canonical card declares. -/
def serializeCard (d : CanonicalCard) : Json :=
  match d.spec with
  | .v2 => serializeV2 d
  | .v3 => serializeV3 d


theorem coercePosition_posToString (p : BookPosition) :
    coercePosition (some (.str (posToString p))) = (p, []) := by
  cases p <;> rfl

theorem jStrD_str (s d : String) : jStrD (some (.str s)) d = s := rfl

theorem jBoolD_bool (b d : Bool) : jBoolD (some (.boolean b)) d = b := rfl

theorem jObjD_obj (o : List (String × Json)) : jObjD (some (.obj o)) = o := rfl

theorem jArrD_arr (xs : List Json) : jArrD (some (.arr xs)) = xs := rfl

theorem jStrList_arr_map_str (l : List String) :
    jStrList (some (.arr (l.map .str))) = some l := by
  show some ((l.map Json.str).filterMap jsonAsStr) = some l
  rw [filterMap_jsonAsStr_map_str]

theorem parseEntry_serializeEntry (e : BookEntry) :
    parseEntry (serializeEntry e) = e := by
  cases e
  simp [parseEntry, serializeEntry, lookupKey, jStrD_str, jBoolD_bool,
    jObjD_obj, jStrList_arr_map_str, jNum_optNumJson,
    coercePosition_posToString]

theorem entryWarnings_serializeEntry (e : BookEntry) :
    entryWarnings (serializeEntry e) = [] := by
  simp [entryWarnings, serializeEntry, lookupKey, jObjD_obj,
    coercePosition_posToString]

theorem map_parseEntry_serializeEntry (l : List BookEntry) :
    (l.map serializeEntry).map parseEntry = l := by
  rw [List.map_map]
  have h : ∀ x ∈ l, (parseEntry ∘ serializeEntry) x = id x := by
    intro x _
    simpa using parseEntry_serializeEntry x
  rw [List.map_congr_left h, List.map_id]

theorem map_parseEntry_comp (l : List BookEntry) :
    l.map (parseEntry ∘ serializeEntry) = l := by
  rw [← List.map_map]
  exact map_parseEntry_serializeEntry l

theorem parseBook_serializeBook (b : CharacterBook) :
    parseBook (serializeBook b) = some b := by
  cases b
  simp [parseBook, serializeBook, lookupKey, jStr_optStrJson, jNum_optNumJson,
    jBool_optBoolJson, jArrD_arr, map_parseEntry_serializeEntry,
    map_parseEntry_comp]

theorem parseAsset_serializeAsset (a : AssetDesc) :
    parseAsset (serializeAsset a) = a := by
  cases a
  simp [parseAsset, serializeAsset, lookupKey, jObjD_obj, jStrD_str]



theorem flatten_entryWarnings (l : List BookEntry) :
    ((l.map serializeEntry).map entryWarnings).flatten = [] := by
  induction l with
  | nil => rfl
  | cons x xs ih =>
      simp [entryWarnings_serializeEntry, ih]

theorem coerceTimestamp_of_le (t : Rat) (h : t ≤ 10000000000) :
    coerceTimestamp t = t := by
  unfold coerceTimestamp
  rw [if_neg (not_lt.mpr h)]

/-- Canonical timestamps are already in seconds. -/
def tsBounded : Option Rat → Prop
  | none => True
  | some t => t ≤ 10000000000

theorem map_coerce_of_bounded (o : Option Rat) (h : tsBounded o) :
    o.map coerceTimestamp = o := by
  cases o with
  | none => rfl
  | some t =>
      simp [Option.map]
      exact coerceTimestamp_of_le t h

theorem roundtripV2 (d : CanonicalCard) (h2 : d.spec = .v2)
    (hg : d.group_only_greetings = []) (ha : d.assets = [])
    (hc : d.creation_date = none) (hm : d.modification_date = none) :
    normalizeCard (serializeV2 d) = .ok (d, []) := by
  obtain ⟨sp, nm, de, pe, sc, fm, me, cr, cv, cn, spr, phi, tg, ag, gog, bk,
    as2, cd, md, ex⟩ := d
  simp only at h2 hg ha hc hm
  subst h2 hg ha hc hm
  cases bk with
  | none =>
      simp [normalizeCard, wrappedSource, serializeV2, serializeDataV2, lookupKey,
        specFromRoot, buildCard, bookWarnings, jStrD_str, jStr_optStrJson,
        jStrList_optStrListJson, jObjD_obj, parseBook]
  | some b =>
      simp [normalizeCard, wrappedSource, serializeV2, serializeDataV2, lookupKey,
        specFromRoot, buildCard, bookWarnings, jStrD_str, jStr_optStrJson,
        jStrList_optStrListJson, jObjD_obj, parseBook_serializeBook,
        serializeBook, parseBook, jNum_optNumJson, jBool_optBoolJson,
        jArrD_arr, map_parseEntry_serializeEntry, map_parseEntry_comp,
        flatten_entryWarnings]
      intro a _
      exact entryWarnings_serializeEntry a



theorem map_parseAsset_serializeAsset (l : List AssetDesc) :
    (l.map serializeAsset).map parseAsset = l := by
  rw [List.map_map]
  have h : ∀ x ∈ l, (parseAsset ∘ serializeAsset) x = id x := by
    intro x _
    simpa using parseAsset_serializeAsset x
  rw [List.map_congr_left h, List.map_id]

theorem map_parseAsset_comp (l : List AssetDesc) :
    l.map (parseAsset ∘ serializeAsset) = l := by
  rw [← List.map_map]
  exact map_parseAsset_serializeAsset l

theorem roundtripV3 (d : CanonicalCard) (h3 : d.spec = .v3)
    (ht : d.tags.isSome) (hc : tsBounded d.creation_date)
    (hm : tsBounded d.modification_date) :
    normalizeCard (serializeV3 d) = .ok (d, []) := by
  obtain ⟨sp, nm, de, pe, sc, fm, me, cr, cv, cn, spr, phi, tg, ag, gog, bk,
    as2, cd, md, ex⟩ := d
  simp only at h3 ht hc hm
  subst h3
  obtain ⟨l, rfl⟩ := Option.isSome_iff_exists.mp ht
  have hcd : cd.map coerceTimestamp = cd := map_coerce_of_bounded cd hc
  have hmd : md.map coerceTimestamp = md := map_coerce_of_bounded md hm
  cases bk with
  | none =>
      simp [normalizeCard, wrappedSource, serializeV3, serializeDataV3, lookupKey,
        specFromRoot, buildCard, bookWarnings, jStrD_str, jStr_optStrJson,
        jStrList_optStrListJson, jStrList_arr_map_str, jObjD_obj, parseBook,
        jNum_optNumJson, jArrD_arr, map_parseAsset_serializeAsset,
        map_parseAsset_comp, hcd, hmd]
  | some b =>
      simp [normalizeCard, wrappedSource, serializeV3, serializeDataV3, lookupKey,
        specFromRoot, buildCard, bookWarnings, jStrD_str, jStr_optStrJson,
        jStrList_optStrListJson, jStrList_arr_map_str, jObjD_obj,
        parseBook_serializeBook, serializeBook, parseBook, jNum_optNumJson,
        jBool_optBoolJson, jArrD_arr, map_parseEntry_serializeEntry,
        map_parseEntry_comp, map_parseAsset_serializeAsset,
        map_parseAsset_comp, flatten_entryWarnings, hcd, hmd]
      intro a _
      exact entryWarnings_serializeEntry a



theorem buildCard_v2_shape (o : List (String × Json)) :
    (buildCard .v2 o).group_only_greetings = [] ∧
    (buildCard .v2 o).assets = [] ∧
    (buildCard .v2 o).creation_date = none ∧
    (buildCard .v2 o).modification_date = none :=
  ⟨rfl, rfl, rfl, rfl⟩

theorem buildCard_v3_tags (o : List (String × Json)) :
    (buildCard .v3 o).tags.isSome = true := rfl

theorem buildCard_spec (tag : SpecTag) (o : List (String × Json)) :
    (buildCard tag o).spec = tag := rfl

/-- Every card produced by the normalizer is a `buildCard` of some source. -/
theorem normalize_is_buildCard (j : Json) (d : CanonicalCard) (w : List String)
    (h : normalizeCard j = .ok (d, w)) :
    ∃ root src, d = buildCard (specFromRoot root).1 src := by
  cases j with
  | obj root =>
      refine ⟨root, ?_⟩
      simp only [normalizeCard] at h
      cases hw : wrappedSource root with
      | some src =>
          rw [hw] at h
          injection h with h2
          exact ⟨src, (congrArg Prod.fst h2).symm⟩
      | none =>
          rw [hw] at h
          cases hn : lookupKey root "name" with
          | some v =>
              rw [hn] at h
              injection h with h2
              exact ⟨root, (congrArg Prod.fst h2).symm⟩
          | none => rw [hn] at h; cases h
  | null => cases h
  | boolean b => cases h
  | num q => cases h
  | str s => cases h
  | arr xs => cases h

/-- Cards produced by the normalizer have the dialect-dependent shape. -/
theorem normalize_shape (j : Json) (d : CanonicalCard) (w : List String)
    (h : normalizeCard j = .ok (d, w)) :
    (d.spec = .v2 →
      d.group_only_greetings = [] ∧ d.assets = [] ∧
      d.creation_date = none ∧ d.modification_date = none) ∧
    (d.spec = .v3 → d.tags.isSome = true) := by
  obtain ⟨root, src, rfl⟩ := normalize_is_buildCard j d w h
  cases htag : (specFromRoot root).1 with
  | v2 =>
      refine ⟨fun _ => buildCard_v2_shape src, fun hco => ?_⟩
      rw [buildCard_spec] at hco
      cases hco
  | v3 =>
      refine ⟨fun hco => ?_, fun _ => buildCard_v3_tags src⟩
      rw [buildCard_spec] at hco
      cases hco



/-- C1 (amended): same-dialect round trip.  For every valid v2 card the
normalize-serialize-normalize composite is the identity on the canonical
card; for v3 the same holds provided the normalized timestamps are already
in seconds (at most 10,000,000,000), the restriction forced by the
millisecond-division heuristic. -/
theorem same_dialect_roundtrip (c : Json) (d : CanonicalCard) (w : List String) :
    ((validateV2 c).valid = true → normalizeCard c = .ok (d, w) →
        d.spec = .v2 → normCard (serializeV2 d) = some d) ∧
    ((validateV3 c).valid = true → normalizeCard c = .ok (d, w) →
        d.spec = .v3 → tsBounded d.creation_date →
        tsBounded d.modification_date →
        normCard (serializeV3 d) = some d) := by
  constructor
  · intro _ hn hs
    obtain ⟨hv2, _⟩ := normalize_shape c d w hn
    obtain ⟨hg, ha, hc, hm⟩ := hv2 hs
    have hr := roundtripV2 d hs hg ha hc hm
    simp [normCard, hr]
  · intro _ hn hs hbc hbm
    obtain ⟨_, hv3⟩ := normalize_shape c d w hn
    have hr := roundtripV3 d hs (hv3 hs) hbc hbm
    simp [normCard, hr]

/-- Concrete valid v2 card for the C1 witness. -/
def cW2 : Json :=
  .obj [("spec", .str "chara_card_v2"), ("spec_version", .str "2.0"),
        ("data", .obj [("name", .str "Amanda"), ("description", .str "d"),
          ("personality", .str "p"), ("scenario", .str "s"),
          ("first_mes", .str "f"), ("mes_example", .str "m")])]

/-- The canonical card of `cW2`. -/
def dW2 : CanonicalCard :=
  { spec := .v2, name := "Amanda", description := "d", personality := "p",
    scenario := "s", first_mes := "f", mes_example := "m", creator := "",
    character_version := "", creator_notes := none, system_prompt := none,
    post_history_instructions := none, tags := none,
    alternate_greetings := none, group_only_greetings := [],
    character_book := none, assets := [], creation_date := none,
    modification_date := none, extensions := [] }

/-- Concrete valid v3 card for the C1 witness. -/
def cW3 : Json :=
  .obj [("spec", .str "chara_card_v3"), ("spec_version", .str "3.0"),
        ("data", .obj [("name", .str "Beep"), ("description", .str ""),
          ("personality", .str ""), ("scenario", .str ""),
          ("first_mes", .str ""), ("mes_example", .str ""),
          ("creator", .str "c"), ("character_version", .str "1"),
          ("tags", .arr [.str "t"]), ("group_only_greetings", .arr []),
          ("creation_date", .num 1700000000)])]

/-- The canonical card of `cW3`. -/
def dW3 : CanonicalCard :=
  { spec := .v3, name := "Beep", description := "", personality := "",
    scenario := "", first_mes := "", mes_example := "", creator := "c",
    character_version := "1", creator_notes := none, system_prompt := none,
    post_history_instructions := none, tags := some ["t"],
    alternate_greetings := none, group_only_greetings := [],
    character_book := none, assets := [], creation_date := some 1700000000,
    modification_date := none, extensions := [] }

/-- Witness for the amended C1 on concrete valid v2 and v3 cards. -/
theorem same_dialect_roundtrip_witness :
    normCard (serializeV2 dW2) = some dW2 ∧
    normCard (serializeV3 dW3) = some dW3 := by
  constructor
  · exact (same_dialect_roundtrip cW2 dW2 []).1 (by decide) rfl rfl
  · exact (same_dialect_roundtrip cW3 dW3 []).2 (by decide) rfl rfl
      (by show (1700000000 : Rat) ≤ 10000000000; norm_num) trivial



/-- Data object of the counterexample card. -/
def tsCardData : List (String × Json) :=
  [("name", .str "T"), ("description", .str ""),
   ("personality", .str ""), ("scenario", .str ""),
   ("first_mes", .str ""), ("mes_example", .str ""),
   ("creator", .str ""), ("character_version", .str ""),
   ("tags", .arr []), ("group_only_greetings", .arr []),
   ("creation_date", .num 10000000000000000)]

/-- Concrete CCv3 card, valid per validateV3, whose creation_date lies in
the range the millisecond heuristic divides twice across a round trip. -/
def tsCardEx : Json :=
  .obj [("spec", .str "chara_card_v3"), ("spec_version", .str "3.0"),
        ("data", .obj tsCardData)]

/-- The canonical card the normalizer produces from `tsCardEx`. -/
def tsCardNorm1 : CanonicalCard :=
  { spec := .v3, name := "T", description := "", personality := "",
    scenario := "", first_mes := "", mes_example := "", creator := "",
    character_version := "", creator_notes := none, system_prompt := none,
    post_history_instructions := none, tags := some [],
    alternate_greetings := none, group_only_greetings := [],
    character_book := none, assets := [], creation_date := some 10000000000000,
    modification_date := none, extensions := [] }

/-- The canonical card obtained after serializing `tsCardNorm1` back to v3
JSON and normalizing again: the timestamp is divided a second time. -/
def tsCardNorm2 : CanonicalCard :=
  { tsCardNorm1 with creation_date := some 10000000000 }

theorem buildCard_tsCardData : buildCard .v3 tsCardData = tsCardNorm1 := by
  have hdiv : (10000000000000000 : Rat) / 1000 = 10000000000000 := by norm_num
  have h0 : buildCard .v3 tsCardData =
      { tsCardNorm1 with
          creation_date := some ((10000000000000000 : Rat) / 1000) } := rfl
  rw [h0, hdiv]
  rfl

theorem normCard_tsCardEx : normCard tsCardEx = some tsCardNorm1 := by
  have h0 : normCard tsCardEx = some (buildCard .v3 tsCardData) := rfl
  rw [h0, buildCard_tsCardData]

theorem buildCard_roundtrip_tsCardNorm1 :
    buildCard .v3 (serializeDataV3 tsCardNorm1) = tsCardNorm2 := by
  have hdiv : (10000000000000 : Rat) / 1000 = 10000000000 := by norm_num
  have h0 : buildCard .v3 (serializeDataV3 tsCardNorm1) =
      { tsCardNorm2 with
          creation_date := some ((10000000000000 : Rat) / 1000) } := rfl
  rw [h0, hdiv]
  rfl

theorem normCard_serialize_tsCardNorm1 :
    normCard (serializeV3 tsCardNorm1) = some tsCardNorm2 := by
  have h0 : normCard (serializeV3 tsCardNorm1) =
      some (buildCard .v3 (serializeDataV3 tsCardNorm1)) := rfl
  rw [h0, buildCard_roundtrip_tsCardNorm1]

/-- Counterexample to C1 as stated: `tsCardEx` is a valid v3 card but the
normalize-serialize-normalize composite changes its canonical card (the
creation_date is divided by 1000 again on re-import). -/
theorem same_dialect_roundtrip_counterexample :
    (validateV3 tsCardEx).valid = true ∧
    ((normCard tsCardEx).bind fun d => normCard (serializeV3 d)) ≠
      normCard tsCardEx := by
  constructor
  · decide
  · rw [normCard_tsCardEx]
    intro h
    have h2 : normCard (serializeV3 tsCardNorm1) = some tsCardNorm1 := by
      simpa using h
    rw [normCard_serialize_tsCardNorm1] at h2
    have h3 := congrArg CanonicalCard.creation_date (Option.some.inj h2)
    have h4 : (some (10000000000 : Rat) : Option Rat) =
        some (10000000000000 : Rat) := h3
    have h5 := Option.some.inj h4
    norm_num at h5



/-- The field source the normalizer reads from (the `data` object when
wrapped, the payload itself when unwrapped legacy). -/
def fieldSourceOf (j : Json) : Option (List (String × Json)) :=
  match j with
  | .obj root =>
      (match wrappedSource root with
       | some src => some src
       | none =>
           match lookupKey root "name" with
           | some _ => some root
           | none => none)
  | _ => none

/-- The `extensions` object of the `data` object of a serialized card. -/
def serializedExtensions (j : Json) : List (String × Json) :=
  match fieldSourceOf j with
  | some src => jObjD (lookupKey src "extensions")
  | none => []

theorem serializeV2_extensions (d : CanonicalCard) :
    serializedExtensions (serializeV2 d) = d.extensions := rfl

theorem serializeV3_extensions (d : CanonicalCard) :
    serializedExtensions (serializeV3 d) = d.extensions := rfl

/-- The extension keys the system explicitly understands and may rewrite. -/
def knownExtensionKeys : List String :=
  ["depth_prompt", "visual_description", "chub", "risuai", "voxta", "tagline"]

/-- The normalizer copies the extensions object of its field source into
the canonical card verbatim. -/
theorem normalize_extensions (j : Json) (d : CanonicalCard) (w : List String)
    (h : normalizeCard j = .ok (d, w)) :
    ∃ src, fieldSourceOf j = some src ∧
      d.extensions = jObjD (lookupKey src "extensions") := by
  cases j with
  | obj root =>
      simp only [normalizeCard] at h
      cases hw : wrappedSource root with
      | some src =>
          rw [hw] at h
          injection h with h2
          refine ⟨src, by simp [fieldSourceOf, hw], ?_⟩
          have hd : buildCard (specFromRoot root).1 src = d := congrArg Prod.fst h2
          rw [← hd]
          rfl
      | none =>
          rw [hw] at h
          cases hn : lookupKey root "name" with
          | some v =>
              rw [hn] at h
              injection h with h2
              refine ⟨root, by simp [fieldSourceOf, hw, hn], ?_⟩
              have hd : buildCard (specFromRoot root).1 root = d := congrArg Prod.fst h2
              rw [← hd]
              rfl
          | none => rw [hn] at h; cases h
  | null => cases h
  | boolean b => cases h
  | num q => cases h
  | str s => cases h
  | arr xs => cases h

/-- C2: extension pass-through.  Any extension key of the input card that
lies outside the explicitly understood set survives a normalize-serialize
round trip (in either dialect) with its entire subtree deep-equal to the
input. -/
theorem extension_passthrough (c : Json) (d : CanonicalCard) (w : List String)
    (src : List (String × Json)) (k : String) (v : Json)
    (hn : normalizeCard c = .ok (d, w))
    (hsrc : fieldSourceOf c = some src)
    (_hk : k ∉ knownExtensionKeys)
    (hv : lookupKey (jObjD (lookupKey src "extensions")) k = some v) :
    lookupKey (serializedExtensions (serializeV2 d)) k = some v ∧
    lookupKey (serializedExtensions (serializeV3 d)) k = some v := by
  obtain ⟨src2, hsrc2, hext⟩ := normalize_extensions c d w hn
  rw [hsrc] at hsrc2
  injection hsrc2 with he
  subst he
  rw [serializeV2_extensions, serializeV3_extensions, hext]
  exact ⟨hv, hv⟩

/-- The custom vendor extension subtree of the C2 witness card. -/
def customVendorVal : Json :=
  .obj [("setting1", .str "value1"), ("setting2", .num 123),
        ("nested", .obj [("deep", .boolean true)])]

/-- Data object of the C2 witness card. -/
def extCardData : List (String × Json) :=
  [("name", .str "E"),
   ("extensions", .obj [("custom_vendor", customVendorVal),
     ("depth_prompt", .obj [("prompt", .str "Custom depth prompt"),
       ("depth", .num 4)])])]

/-- The C2 witness card, carrying an unknown custom_vendor extension. -/
def extCardEx : Json :=
  .obj [("spec", .str "chara_card_v2"), ("spec_version", .str "2.0"),
        ("data", .obj extCardData)]

/-- The canonical card of `extCardEx`. -/
def extCardNorm : CanonicalCard :=
  { spec := .v2, name := "E", description := "", personality := "",
    scenario := "", first_mes := "", mes_example := "", creator := "",
    character_version := "", creator_notes := none, system_prompt := none,
    post_history_instructions := none, tags := none,
    alternate_greetings := none, group_only_greetings := [],
    character_book := none, assets := [], creation_date := none,
    modification_date := none,
    extensions := [("custom_vendor", customVendorVal),
      ("depth_prompt", .obj [("prompt", .str "Custom depth prompt"),
        ("depth", .num 4)])] }

/-- Witness for C2: the custom_vendor subtree survives both serializers
deep-equal. -/
theorem extension_passthrough_witness :
    lookupKey (serializedExtensions (serializeV2 extCardNorm)) "custom_vendor" =
      some customVendorVal ∧
    lookupKey (serializedExtensions (serializeV3 extCardNorm)) "custom_vendor" =
      some customVendorVal :=
  extension_passthrough extCardEx extCardNorm [] extCardData "custom_vendor"
    customVendorVal rfl rfl (by decide) rfl



/-- Data object of a v3 probe card carrying a numeric timestamp `t` in both
timestamp fields. -/
def tsProbeData (t : Rat) : List (String × Json) :=
  [("name", .str "P"), ("creation_date", .num t),
   ("modification_date", .num t)]

/-- A valid-shaped v3 card carrying the timestamp `t`. -/
def tsProbeCard (t : Rat) : Json :=
  .obj [("spec", .str "chara_card_v3"), ("spec_version", .str "3.0"),
        ("data", .obj (tsProbeData t))]

/-- C7: timestamp unit coercion boundary.  The normalizer maps every numeric
Unix-timestamp field through `coerceTimestamp`, which divides by 1000
exactly when the value exceeds 10,000,000,000 and passes it through
otherwise. -/
theorem timestamp_coercion (t : Rat) :
    (((normCard (tsProbeCard t)).bind fun d => d.creation_date) =
        some (coerceTimestamp t)) ∧
    (((normCard (tsProbeCard t)).bind fun d => d.modification_date) =
        some (coerceTimestamp t)) ∧
    (t ≤ 10000000000 → coerceTimestamp t = t) ∧
    (10000000000 < t → coerceTimestamp t = t / 1000) := by
  refine ⟨rfl, rfl, ?_, ?_⟩
  · intro h
    unfold coerceTimestamp
    rw [if_neg (not_lt.mpr h)]
  · intro h
    unfold coerceTimestamp
    rw [if_pos h]

/-- Witness for C7 at the boundary: 10,000,000,000 is unchanged and
10,000,000,001 is divided by 1000. -/
theorem timestamp_coercion_witness :
    (((normCard (tsProbeCard 10000000000)).bind fun d => d.creation_date) =
        some 10000000000) ∧
    (((normCard (tsProbeCard 10000000001)).bind fun d => d.creation_date) =
        some (10000000001 / 1000)) := by
  constructor
  · have h := (timestamp_coercion 10000000000).1
    rw [(timestamp_coercion 10000000000).2.2.1 (by norm_num)] at h
    exact h
  · have h := (timestamp_coercion 10000000001).1
    rw [(timestamp_coercion 10000000001).2.2.2 (by norm_num)] at h
    exact h



/-- A lorebook entry JSON whose position field holds `v`. -/
def posEntryJson (v : Json) : Json :=
  .obj [("keys", .arr [.str "k"]), ("content", .str "x"), ("position", v)]

/-- A v2 card whose single lorebook entry has position value `v`. -/
def posCard (v : Json) : Json :=
  .obj [("spec", .str "chara_card_v2"), ("spec_version", .str "2.0"),
        ("data", .obj [("name", .str "L"),
          ("character_book", .obj [("entries", .arr [posEntryJson v])])])]

/-- Position of the first lorebook entry of the normalized card. -/
def firstEntryPos (j : Json) : Option BookPosition :=
  (normCard j).bind fun d =>
    d.character_book.bind fun b => (b.entries.head?).map (·.position)

/-- C8: lorebook position coercion.  Numeric 0 maps to before_char, integral
values of at least 1 map to after_char, canonical enum strings pass through,
every other value defaults to after_char with a non-fatal warning, and the
normalizer succeeds on every position value. -/
theorem position_coercion (v : Json) :
    (firstEntryPos (posCard v) = some (coercePosition (some v)).1) ∧
    (normWarnings (posCard v) = some (coercePosition (some v)).2) ∧
    ((normCard (posCard v)).isSome = true) ∧
    (coercePosition (some (.num 0)) = (.before_char, [])) ∧
    (∀ n : Int, 1 ≤ n →
        coercePosition (some (.num (n : Rat))) = (.after_char, [])) ∧
    (coercePosition (some (.str "before_char")) = (.before_char, [])) ∧
    (coercePosition (some (.str "after_char")) = (.after_char, [])) ∧
    (∀ q : Rat, ¬q = 0 → ¬(q.den = 1 ∧ 1 ≤ q) →
        (coercePosition (some (.num q))).1 = .after_char ∧
        (coercePosition (some (.num q))).2 ≠ []) ∧
    (∀ s : String, ¬s = "before_char" → ¬s = "after_char" →
        (coercePosition (some (.str s))).1 = .after_char ∧
        (coercePosition (some (.str s))).2 ≠ []) ∧
    ((coercePosition (some .null)).1 = .after_char ∧
        (coercePosition (some .null)).2 ≠ []) := by
  refine ⟨rfl, ?_, rfl, rfl, ?_, rfl, rfl, ?_, ?_, by decide⟩
  · have h0 : normWarnings (posCard v) =
        some ((coercePosition (some v)).2 ++ []) := rfl
    rw [h0]
    simp
  · intro n hn
    have hden : ((n : Rat)).den = 1 := Rat.den_intCast n
    have hne : ¬((n : Rat) = 0) := by
      intro hc
      have : n = 0 := by exact_mod_cast hc
      omega
    have hge : 1 ≤ (n : Rat) := by exact_mod_cast hn
    simp only [coercePosition]
    rw [if_neg hne, if_pos ⟨hden, hge⟩]
  · intro q hq hcond
    simp only [coercePosition]
    rw [if_neg hq, if_neg hcond]
    exact ⟨rfl, by simp⟩
  · intro s h1 h2
    simp only [coercePosition]
    rw [if_neg h1, if_neg h2]
    exact ⟨rfl, by simp⟩

/-- Witness for C8 at the documented values: 0, 1, the canonical strings and
a non-coercible value. -/
theorem position_coercion_witness :
    firstEntryPos (posCard (.num 0)) = some .before_char ∧
    firstEntryPos (posCard (.num 1)) = some .after_char ∧
    firstEntryPos (posCard (.str "before_char")) = some .before_char ∧
    firstEntryPos (posCard .null) = some .after_char ∧
    normWarnings (posCard .null) ≠ some [] ∧
    (normCard (posCard .null)).isSome = true := by
  refine ⟨?_, ?_, ?_, ?_, ?_, (position_coercion .null).2.2.1⟩
  · have h := (position_coercion (.num 0)).1
    rw [(position_coercion (.num 0)).2.2.2.1] at h
    exact h
  · have h := (position_coercion (.num 1)).1
    have h1 := (position_coercion (.num 1)).2.2.2.2.1 1 (by omega)
    have h2 : coercePosition (some (.num ((1 : Int) : Rat))) =
        coercePosition (some (.num 1)) := by norm_num
    rw [h2] at h1
    rw [h1] at h
    exact h
  · have h := (position_coercion (.str "before_char")).1
    rw [(position_coercion (.str "before_char")).2.2.2.2.2.1] at h
    exact h
  · have h := (position_coercion .null).1
    rw [show (coercePosition (some .null)).1 = .after_char from rfl] at h
    exact h
  · have h := (position_coercion .null).2.1
    rw [h]
    decide



/-- The object fields of a looked-up lorebook value. -/
def bookObjOf : Option Json → Option (List (String × Json))
  | some (.obj bo) => some bo
  | _ => none

/-- The element list of a looked-up entries value. -/
def entriesArrOf : Option Json → Option (List Json)
  | some (.arr xs) => some xs
  | _ => none

/-- The raw lorebook entry array of a card payload, along the same path the
normalizer reads it. -/
def rawBookEntries (j : Json) : Option (List Json) :=
  (fieldSourceOf j).bind fun src =>
    (bookObjOf (lookupKey src "character_book")).bind fun bo =>
      entriesArrOf (lookupKey bo "entries")

/-- Raw field access inside one lorebook entry object. -/
def rawEntryField (raw : Json) (k : String) : Option Json :=
  lookupKey (jObjD (some raw)) k

/-- The i-th lorebook entry of a canonical card. -/
def bookEntryAt (d : CanonicalCard) (i : Nat) : Option BookEntry :=
  d.character_book.bind fun b => b.entries[i]?

/-- Every card produced by the normalizer is a `buildCard` applied to its
field source. -/
theorem normalize_source (j : Json) (d : CanonicalCard) (w : List String)
    (h : normalizeCard j = .ok (d, w)) :
    ∃ tag src, fieldSourceOf j = some src ∧ d = buildCard tag src := by
  cases j with
  | obj root =>
      simp only [normalizeCard] at h
      cases hw : wrappedSource root with
      | some src =>
          rw [hw] at h
          injection h with h2
          have hd : buildCard (specFromRoot root).1 src = d := congrArg Prod.fst h2
          exact ⟨(specFromRoot root).1, src, by simp [fieldSourceOf, hw], hd.symm⟩
      | none =>
          rw [hw] at h
          cases hn : lookupKey root "name" with
          | some v =>
              rw [hn] at h
              injection h with h2
              have hd : buildCard (specFromRoot root).1 root = d :=
                congrArg Prod.fst h2
              exact ⟨(specFromRoot root).1, root,
                by simp [fieldSourceOf, hw, hn], hd.symm⟩
          | none => rw [hn] at h; cases h
  | null => cases h
  | boolean b => cases h
  | num q => cases h
  | str s => cases h
  | arr xs => cases h

theorem rawBookEntries_serializeV2 (d : CanonicalCard) (b : CharacterBook)
    (h : d.character_book = some b) :
    rawBookEntries (serializeV2 d) = some (b.entries.map serializeEntry) := by
  have h1 : lookupKey (serializeDataV2 d) "character_book" =
      some (match d.character_book with
            | some b2 => serializeBook b2
            | none => .null) := rfl
  rw [h] at h1
  show (bookObjOf (lookupKey (serializeDataV2 d) "character_book")).bind
      (fun bo => entriesArrOf (lookupKey bo "entries")) = _
  rw [h1]
  rfl

theorem rawBookEntries_serializeV3 (d : CanonicalCard) (b : CharacterBook)
    (h : d.character_book = some b) :
    rawBookEntries (serializeV3 d) = some (b.entries.map serializeEntry) := by
  have h1 : lookupKey (serializeDataV3 d) "character_book" =
      some (match d.character_book with
            | some b2 => serializeBook b2
            | none => .null) := rfl
  rw [h] at h1
  show (bookObjOf (lookupKey (serializeDataV3 d) "character_book")).bind
      (fun bo => entriesArrOf (lookupKey bo "entries")) = _
  rw [h1]
  rfl

/-- C9: lorebook ordinal preservation.  Normalization turns the raw entry
array into its index-wise `parseEntry` image (same count, same order, fields
read off the raw entry modulo the documented position coercion), both
serializers emit the entries in canonical order as their index-wise
`serializeEntry` image, and serializing then re-parsing an entry is the
identity, so an export/re-import round trip keeps every entry at its index
with identical keys, content, enabled, priority and position. -/
theorem lorebook_order (c : Json) (d : CanonicalCard) (w : List String)
    (js : List Json)
    (hn : normalizeCard c = .ok (d, w))
    (hb : rawBookEntries c = some js) :
    (d.character_book.map CharacterBook.entries = some (js.map parseEntry)) ∧
    (∀ b, d.character_book = some b →
        b.entries.length = js.length ∧
        rawBookEntries (serializeV2 d) = some (b.entries.map serializeEntry) ∧
        rawBookEntries (serializeV3 d) = some (b.entries.map serializeEntry)) ∧
    (∀ i, i < js.length →
        bookEntryAt d i = (js[i]?).map parseEntry) ∧
    (∀ raw : Json,
        (parseEntry raw).keys = (jStrList (rawEntryField raw "keys")).getD [] ∧
        (parseEntry raw).content = jStrD (rawEntryField raw "content") "" ∧
        (parseEntry raw).enabled = jBoolD (rawEntryField raw "enabled") true ∧
        (parseEntry raw).priority = jNum (rawEntryField raw "priority") ∧
        (parseEntry raw).position =
          (coercePosition (rawEntryField raw "position")).1) ∧
    (∀ e : BookEntry, parseEntry (serializeEntry e) = e) := by
  obtain ⟨tag, src, hsrc, rfl⟩ := normalize_source c d w hn
  simp only [rawBookEntries, hsrc, Option.some_bind] at hb
  have hbook : ∃ bo, lookupKey src "character_book" = some (.obj bo) ∧
      lookupKey bo "entries" = some (.arr js) := by
    cases hcb : lookupKey src "character_book" with
    | none => rw [hcb] at hb; cases hb
    | some v =>
        cases v with
        | obj bo =>
            rw [hcb] at hb
            simp only [bookObjOf, Option.some_bind] at hb
            refine ⟨bo, rfl, ?_⟩
            cases he : lookupKey bo "entries" with
            | none => rw [he] at hb; cases hb
            | some ev =>
                cases ev with
                | arr xs =>
                    rw [he] at hb
                    simp only [entriesArrOf] at hb
                    injection hb with h2
                    rw [h2]
                | null => rw [he] at hb; cases hb
                | boolean b2 => rw [he] at hb; cases hb
                | num q2 => rw [he] at hb; cases hb
                | str s2 => rw [he] at hb; cases hb
                | obj o2 => rw [he] at hb; cases hb
        | null => rw [hcb] at hb; cases hb
        | boolean b2 => rw [hcb] at hb; cases hb
        | num q2 => rw [hcb] at hb; cases hb
        | str s2 => rw [hcb] at hb; cases hb
        | arr xs2 => rw [hcb] at hb; cases hb
  obtain ⟨bo, hcb, he⟩ := hbook
  have hbookval : (buildCard tag src).character_book =
      some { name := jStr (lookupKey bo "name")
             description := jStr (lookupKey bo "description")
             scan_depth := jNum (lookupKey bo "scan_depth")
             token_budget := jNum (lookupKey bo "token_budget")
             recursive_scanning := jBool (lookupKey bo "recursive_scanning")
             entries := js.map parseEntry } := by
    show ((lookupKey src "character_book").bind parseBook) = _
    rw [hcb]
    simp [parseBook, he, jArrD]
  refine ⟨?_, ?_, ?_, ?_, parseEntry_serializeEntry⟩
  · rw [hbookval]
    rfl
  · intro b hbval
    rw [hbookval] at hbval
    injection hbval with h2
    subst h2
    exact ⟨by simp,
      rawBookEntries_serializeV2 (buildCard tag src) _ hbookval,
      rawBookEntries_serializeV3 (buildCard tag src) _ hbookval⟩
  · intro i hi
    simp only [bookEntryAt, hbookval, Option.some_bind]
    simp [List.getElem?_map]
  · intro raw
    exact ⟨rfl, rfl, rfl, rfl, rfl⟩

/-- First raw lorebook entry of the C9 witness card. -/
def lorebookEntry1 : Json :=
  .obj [("keys", .arr [.str "alpha"]), ("content", .str "c1"),
        ("enabled", .boolean true), ("priority", .num 10),
        ("position", .num 0)]

/-- Second raw lorebook entry of the C9 witness card. -/
def lorebookEntry2 : Json :=
  .obj [("keys", .arr [.str "beta"]), ("content", .str "c2"),
        ("enabled", .boolean false), ("priority", .num 5),
        ("position", .str "after_char")]

/-- Data object of the C9 witness card. -/
def lorebookCardData : List (String × Json) :=
  [("name", .str "L"),
   ("character_book", .obj [("entries",
     .arr [lorebookEntry1, lorebookEntry2])])]

/-- The C9 witness card. -/
def lorebookCardEx : Json :=
  .obj [("spec", .str "chara_card_v2"), ("spec_version", .str "2.0"),
        ("data", .obj lorebookCardData)]

/-- The canonical card of `lorebookCardEx`. -/
def lorebookCardNorm : CanonicalCard := buildCard .v2 lorebookCardData

/-- Witness for C9 on a two-entry lorebook: entries stay at their indices
with fields intact and the numeric positions coerced. -/
theorem lorebook_order_witness :
    lorebookCardNorm.character_book.map CharacterBook.entries =
      some ([lorebookEntry1, lorebookEntry2].map parseEntry) ∧
    bookEntryAt lorebookCardNorm 0 = some (parseEntry lorebookEntry1) ∧
    bookEntryAt lorebookCardNorm 1 = some (parseEntry lorebookEntry2) ∧
    (parseEntry lorebookEntry1).position = .before_char ∧
    (parseEntry lorebookEntry2).content = "c2" := by
  have lt := lorebook_order lorebookCardEx lorebookCardNorm []
      [lorebookEntry1, lorebookEntry2] rfl rfl
  refine ⟨lt.1, ?_, ?_, rfl, rfl⟩
  · have h := lt.2.2.1 0 (by norm_num)
    rw [h]
    rfl
  · have h := lt.2.2.1 1 (by norm_num)
    rw [h]
    rfl


/-! ## PNG text-chunk codec

Modelled from the spec (section 4.4): the PNG package of this repository is
absent from the source tree.  A PNG is its chunk list; a text chunk carries
a keyword and a payload, the payload standing for the base64-encoded JSON
the real codec stores. -/

inductive PngChunk where
  | tEXtChunk : String → Json → PngChunk
  | zTXtChunk : String → Json → PngChunk
  | otherChunk : Nat → PngChunk

/-- The recognized card-data keywords, in priority order. -/
def recognizedKeys : List String := ["chara", "ccv3", "chara_card_v3"]

/-- Payload of a tEXt chunk when its keyword is `k`. -/
def chunkTextPayload (k : String) : PngChunk → Option Json
  | .tEXtChunk kw p => if kw = k then some p else none
  | _ => none

/-- First tEXt chunk of the stream keyed `k`. -/
def findTextChunk (cs : List PngChunk) (k : String) : Option Json :=
  cs.findSome? (chunkTextPayload k)

/-- Modelled from the spec: the read side scans for the recognized keys in
priority order chara, ccv3, chara_card_v3. -/
def readPNGCardRaw (cs : List PngChunk) : Option Json :=
  match findTextChunk cs "chara" with
  | some p => some p
  | none =>
      match findTextChunk cs "ccv3" with
      | some p => some p
      | none => findTextChunk cs "chara_card_v3"

/-- Read and normalize the embedded card. -/
def readPNGCard (cs : List PngChunk) : Option CanonicalCard :=
  (readPNGCardRaw cs).bind normCard

/-- A tEXt or zTXt chunk keyed by any recognized key. -/
def isRecognizedCardChunk : PngChunk → Bool
  | .tEXtChunk kw _ => recognizedKeys.contains kw
  | .zTXtChunk kw _ => recognizedKeys.contains kw
  | .otherChunk _ => false

/-- Modelled from the spec: the write side removes every pre-existing
tEXt/zTXt chunk with a recognized key, then appends a single tEXt chunk
keyed chara holding the serialized card. -/
def writePNGCard (cs : List PngChunk) (d : CanonicalCard) : List PngChunk :=
  (cs.filter fun ch => !(isRecognizedCardChunk ch)) ++
    [.tEXtChunk "chara" (serializeCard d)]

/-- Number of chunks with a recognized key. -/
def recognizedCount (cs : List PngChunk) : Nat :=
  cs.countP isRecognizedCardChunk

/-- C5: PNG read chunk priority.  The read side returns the payload of the
first chara tEXt chunk when one exists, else the first ccv3 chunk, else the
first chara_card_v3 chunk: the higher-priority key wins even when lower
keys carry differing payloads. -/
theorem png_read_priority (cs : List PngChunk) :
    (∀ p, findTextChunk cs "chara" = some p → readPNGCardRaw cs = some p) ∧
    (findTextChunk cs "chara" = none →
        ∀ p, findTextChunk cs "ccv3" = some p → readPNGCardRaw cs = some p) ∧
    (findTextChunk cs "chara" = none → findTextChunk cs "ccv3" = none →
        readPNGCardRaw cs = findTextChunk cs "chara_card_v3") := by
  refine ⟨?_, ?_, ?_⟩
  · intro p hp
    simp [readPNGCardRaw, hp]
  · intro h1 p hp
    simp [readPNGCardRaw, h1, hp]
  · intro h1 h2
    simp [readPNGCardRaw, h1, h2]

/-- Witness for C5 on a stream holding differing chara and ccv3 payloads:
the chara payload wins. -/
theorem png_read_priority_witness :
    findTextChunk [.otherChunk 7, .tEXtChunk "ccv3" (.str "low"),
        .tEXtChunk "chara" (.str "high")] "chara" = some (.str "high") ∧
    readPNGCardRaw [.otherChunk 7, .tEXtChunk "ccv3" (.str "low"),
        .tEXtChunk "chara" (.str "high")] = some (.str "high") := by
  constructor
  · rfl
  · exact (png_read_priority [.otherChunk 7, .tEXtChunk "ccv3" (.str "low"),
      .tEXtChunk "chara" (.str "high")]).1 (.str "high") rfl

/-- A dialect-consistent canonical card whose timestamps are already in
seconds.  Every normalizer output has the dialect-consistent part
(`normalize_shape`); the timestamp bound can fail on normalizer outputs for
pathological inputs (`normCard_tsCardEx`), which is exactly the restriction
the amended round-trip claims carry. -/
def CanonicalShape (d : CanonicalCard) : Prop :=
  (d.spec = .v2 → d.group_only_greetings = [] ∧ d.assets = [] ∧
    d.creation_date = none ∧ d.modification_date = none) ∧
  (d.spec = .v3 → d.tags.isSome = true) ∧
  tsBounded d.creation_date ∧ tsBounded d.modification_date

theorem serializeCard_roundtrip (d : CanonicalCard) (h : CanonicalShape d) :
    normCard (serializeCard d) = some d := by
  obtain ⟨h2, h3, hbc, hbm⟩ := h
  cases hs : d.spec with
  | v2 =>
      obtain ⟨hg, ha, hc, hm⟩ := h2 hs
      have hr := roundtripV2 d hs hg ha hc hm
      simp [serializeCard, hs, normCard, hr]
  | v3 =>
      have hr := roundtripV3 d hs (h3 hs) hbc hbm
      simp [serializeCard, hs, normCard, hr]

theorem recognizedCount_writePNGCard (cs : List PngChunk) (d : CanonicalCard) :
    recognizedCount (writePNGCard cs d) = 1 := by
  unfold recognizedCount writePNGCard
  rw [List.countP_append]
  have h0 : (cs.filter fun ch => !(isRecognizedCardChunk ch)).countP
      isRecognizedCardChunk = 0 := by
    rw [List.countP_eq_zero]
    intro ch hch
    have := (List.mem_filter.mp hch).2
    simpa using this
  rw [h0]
  rfl

theorem findTextChunk_writePNGCard (cs : List PngChunk) (d : CanonicalCard) :
    findTextChunk (writePNGCard cs d) "chara" = some (serializeCard d) := by
  unfold findTextChunk writePNGCard
  rw [List.findSome?_append]
  have h0 : (cs.filter fun ch => !(isRecognizedCardChunk ch)).findSome?
      (chunkTextPayload "chara") = none := by
    rw [List.findSome?_eq_none_iff]
    intro ch hch
    have hrec := (List.mem_filter.mp hch).2
    cases ch with
    | tEXtChunk kw p =>
        simp [isRecognizedCardChunk, recognizedKeys] at hrec
        simp [chunkTextPayload]
        intro hkw
        exact absurd hkw hrec.1
    | zTXtChunk kw p => rfl
    | otherChunk t => rfl
  rw [h0]
  rfl

/-- Reading a just-written stream always lands on the freshly inserted
chara chunk: the result is the re-normalization of the serialized card. -/
theorem readPNGCard_writePNGCard_eq (cs : List PngChunk) (d : CanonicalCard) :
    readPNGCard (writePNGCard cs d) = normCard (serializeCard d) := by
  unfold readPNGCard
  have h1 := findTextChunk_writePNGCard cs d
  have h2 : readPNGCardRaw (writePNGCard cs d) = some (serializeCard d) := by
    simp [readPNGCardRaw, h1]
  rw [h2]
  rfl

/-- Re-normalizing a serialized card always succeeds: the serializers emit
a wrapped payload with a data object the normalizer accepts. -/
theorem normCard_serializeCard_isSome (d : CanonicalCard) :
    (normCard (serializeCard d)).isSome = true := by
  cases hs : d.spec with
  | v2 =>
      unfold serializeCard
      rw [hs]
      rfl
  | v3 =>
      unfold serializeCard
      rw [hs]
      rfl

theorem readPNGCard_writePNGCard (cs : List PngChunk) (d : CanonicalCard)
    (h : CanonicalShape d) : readPNGCard (writePNGCard cs d) = some d := by
  rw [readPNGCard_writePNGCard_eq cs d]
  exact serializeCard_roundtrip d h

/-- One write followed by n read-then-rewrite export cycles. -/
def exportCycles (base : List PngChunk) (d : CanonicalCard) :
    Nat → Option (List PngChunk)
  | 0 => some (writePNGCard base d)
  | n + 1 =>
      (exportCycles base d n).bind fun p =>
        (readPNGCard p).map fun c => writePNGCard p c

/-- Every export cycle succeeds and leaves exactly one recognized chunk,
for every base stream and card. -/
theorem exportCycles_total (base : List PngChunk) (d : CanonicalCard)
    (n : Nat) :
    ∃ p, exportCycles base d n = some p ∧ recognizedCount p = 1 ∧
      (readPNGCard p).isSome = true := by
  induction n with
  | zero =>
      refine ⟨writePNGCard base d, rfl,
        recognizedCount_writePNGCard base d, ?_⟩
      rw [readPNGCard_writePNGCard_eq base d]
      exact normCard_serializeCard_isSome d
  | succ n ih =>
      obtain ⟨p, hp, _, hr⟩ := ih
      obtain ⟨c, hcread⟩ := Option.isSome_iff_exists.mp hr
      refine ⟨writePNGCard p c, ?_,
        recognizedCount_writePNGCard p c, ?_⟩
      · show (exportCycles base d n).bind _ = _
        rw [hp]
        simp [hcread]
      · rw [readPNGCard_writePNGCard_eq p c]
        exact normCard_serializeCard_isSome c

/-- C4 (amended): PNG write idempotence.  Writing removes every
pre-existing chunk with a recognized key and inserts exactly one chara
tEXt chunk, so for every base image and card the stream after any number
of consecutive export cycles holds exactly one recognized chunk; and when
the card is dialect-consistent with timestamps already in seconds,
re-importing after each cycle yields the identical canonical card.  The
timestamp restriction is forced: on a normalizer-reachable card with a
timestamp above 10,000,000,000 the first re-import divides it again. -/
theorem png_write_idempotent (base : List PngChunk) (d : CanonicalCard)
    (n : Nat) :
    (∃ p, exportCycles base d n = some p ∧ recognizedCount p = 1) ∧
    (CanonicalShape d →
      ∃ p, exportCycles base d n = some p ∧ recognizedCount p = 1 ∧
        readPNGCard p = some d) := by
  constructor
  · obtain ⟨p, hp, hc, _⟩ := exportCycles_total base d n
    exact ⟨p, hp, hc⟩
  · intro h
    induction n with
    | zero =>
        exact ⟨writePNGCard base d, rfl,
          recognizedCount_writePNGCard base d,
          readPNGCard_writePNGCard base d h⟩
    | succ n ih =>
        obtain ⟨p, hp, _, hr⟩ := ih
        refine ⟨writePNGCard p d, ?_,
          recognizedCount_writePNGCard p d,
          readPNGCard_writePNGCard p d h⟩
        show (exportCycles base d n).bind _ = _
        rw [hp]
        simp [hr]

/-- Base chunk stream and card for the C4 witness. -/
def pngBaseW : List PngChunk :=
  [.otherChunk 0, .tEXtChunk "ccv3" .null, .zTXtChunk "chara" .null,
   .tEXtChunk "comment" (.str "keep")]

/-- Card serialized in the C4 witness. -/
def pngCardW : CanonicalCard :=
  { spec := .v2, name := "Png", description := "", personality := "",
    scenario := "", first_mes := "", mes_example := "", creator := "",
    character_version := "", creator_notes := none, system_prompt := none,
    post_history_instructions := none, tags := none,
    alternate_greetings := none, group_only_greetings := [],
    character_book := none, assets := [], creation_date := none,
    modification_date := none, extensions := [] }

/-- Counterexample to C4 as stated: `tsCardNorm1` is a canonical card the
normalizer itself produces (from the valid v3 card `tsCardEx`), the PNG
write still leaves exactly one recognized chunk, but re-importing the
written stream yields `tsCardNorm2` — the creation_date was divided by
1000 again — so the re-imported canonical card is not identical to the
exported one. -/
theorem png_write_idempotent_counterexample :
    normCard tsCardEx = some tsCardNorm1 ∧
    recognizedCount (writePNGCard pngBaseW tsCardNorm1) = 1 ∧
    readPNGCard (writePNGCard pngBaseW tsCardNorm1) ≠ some tsCardNorm1 := by
  refine ⟨normCard_tsCardEx,
    recognizedCount_writePNGCard pngBaseW tsCardNorm1, ?_⟩
  rw [readPNGCard_writePNGCard_eq pngBaseW tsCardNorm1]
  have hser : serializeCard tsCardNorm1 = serializeV3 tsCardNorm1 := rfl
  rw [hser, normCard_serialize_tsCardNorm1]
  intro h
  have h3 := congrArg CanonicalCard.creation_date (Option.some.inj h)
  have h4 : (some (10000000000 : Rat) : Option Rat) =
      some (10000000000000 : Rat) := h3
  have h5 := Option.some.inj h4
  norm_num at h5

/-- Witness for C4 after two export cycles: the unconditional chunk-count
clause at the timestamp-carrying card, and the full identity clause at a
dialect-consistent card, over a stream that already held stale recognized
chunks. -/
theorem png_write_idempotent_witness :
    (∃ p, exportCycles pngBaseW tsCardNorm1 2 = some p ∧
      recognizedCount p = 1) ∧
    (∃ p, exportCycles pngBaseW pngCardW 2 = some p ∧
      recognizedCount p = 1 ∧ readPNGCard p = some pngCardW) := by
  constructor
  · exact (png_write_idempotent pngBaseW tsCardNorm1 2).1
  · exact (png_write_idempotent pngBaseW pngCardW 2).2
      (by
        refine ⟨fun _ => ⟨rfl, rfl, rfl, rfl⟩, fun hco => ?_, trivial, trivial⟩
        exact absurd hco (by decide))


/-! ## CHARX and Voxta archive builders

Modelled from the spec (sections 4.5 and 4.6): the charx and voxta packages
of this repository are absent from the source tree.  An archive is its
entry list; an entry is a directory segment list plus a filename stem and
extension.  Stems distinguish the named main icon from positionally named
assets, so the test-suite filename patterns (which look for the substring
"main." in the lowercased path) become decidable on the stem. -/

def lowerStr (s : String) : String := ⟨s.data.map Char.toLower⟩

inductive FileStem where
  | named : String → FileStem
  | suffixed : String → Nat → FileStem
  | indexed : Nat → FileStem

structure ArchiveEntry where
  segs : List String
  stem : FileStem
  ext : String

def strEndsWith (s t : String) : Bool := t.data.isSuffixOf s.data

/-- The rendered lowercase filename contains the substring "main." — with
dot-free stems, exactly when the stem ends with "main".  A suffixed stem
renders with a trailing dedup counter (main_1.png) and an indexed stem
renders as digits, so neither matches. -/
def stemHasMainDot : FileStem → Bool
  | .named s => strEndsWith (lowerStr s) "main"
  | .suffixed _ _ => false
  | .indexed _ => false

/-- The main character icon, as the asset-integrity tests identify it. -/
def isMainIconAsset (a : AssetDesc) : Bool :=
  a.kind == "icon" && lowerStr a.name == "main"

/-- Test predicate hasMainIconInAssets: an entry under an Avatars folder
whose filename matches main.*. -/
def voxtaMainMatch (e : ArchiveEntry) : Bool :=
  e.segs.contains "Avatars" && stemHasMainDot e.stem

/-- Test predicate hasMainIconInCharx: an entry under assets/ whose
filename matches main.*. -/
def charxMainMatch (e : ArchiveEntry) : Bool :=
  (e.segs.head? == some "assets") && stemHasMainDot e.stem

/-- One Voxta asset entry: icons under Assets/Avatars/Default, other kinds
under Assets/{kind}, positionally named. -/
def voxtaAssetEntry (uuid : String) (ia : Nat × AssetDesc) : ArchiveEntry :=
  if ia.2.kind == "icon" then
    { segs := ["Characters", uuid, "Assets", "Avatars", "Default"],
      stem := FileStem.indexed ia.1, ext := ia.2.ext }
  else
    { segs := ["Characters", uuid, "Assets", ia.2.kind],
      stem := FileStem.indexed ia.1, ext := ia.2.ext }

/-- Modelled from the spec: the Voxta builder writes the character JSON and
thumbnail, then every asset except the main icon. -/
def buildVoxta (uuid : String) (d : CanonicalCard) : List ArchiveEntry :=
  { segs := ["Characters", uuid], stem := FileStem.named "character",
    ext := "json" } ::
  { segs := ["Characters", uuid], stem := FileStem.named "thumbnail",
    ext := "png" } ::
  ((d.assets.filter fun a => !(isMainIconAsset a)).enum.map
    (voxtaAssetEntry uuid))

/-- Entries for the main icon(s) of a CHARX archive: the first is written
as assets/main.{ext}; name collisions take a numeric dedup suffix in input
order (spec section 4.5). -/
def charxMainEntries : List AssetDesc → List ArchiveEntry
  | [] => []
  | a :: rest =>
      { segs := ["assets"], stem := FileStem.named "main", ext := a.ext } ::
      (rest.enum.map fun ja =>
        { segs := ["assets"], stem := FileStem.suffixed "main" (ja.1 + 1),
          ext := ja.2.ext })

/-- One non-main CHARX asset entry under assets/{type}/, positionally
named. -/
def charxAssetEntry (ia : Nat × AssetDesc) : ArchiveEntry :=
  { segs := ["assets", ia.2.kind], stem := FileStem.indexed ia.1,
    ext := ia.2.ext }

/-- Modelled from the spec: the CHARX builder writes card.json, the main
icon under assets/, and the remaining assets under assets/{type}/. -/
def buildCharx (d : CanonicalCard) : List ArchiveEntry :=
  { segs := [], stem := FileStem.named "card", ext := "json" } ::
  (charxMainEntries (d.assets.filter isMainIconAsset) ++
    ((d.assets.filter fun a => !(isMainIconAsset a)).enum.map
      charxAssetEntry))

theorem voxtaMainMatch_assetEntry (uuid : String) (ia : Nat × AssetDesc) :
    voxtaMainMatch (voxtaAssetEntry uuid ia) = false := by
  unfold voxtaAssetEntry
  by_cases hk : ia.2.kind == "icon"
  · simp [hk, voxtaMainMatch, stemHasMainDot]
  · simp [hk, voxtaMainMatch, stemHasMainDot]

theorem charxMainMatch_assetEntry (ia : Nat × AssetDesc) :
    charxMainMatch (charxAssetEntry ia) = false := by
  simp [charxAssetEntry, charxMainMatch, stemHasMainDot]

theorem stemHasMainDot_character :
    stemHasMainDot (FileStem.named "character") = false := by decide

theorem stemHasMainDot_thumbnail :
    stemHasMainDot (FileStem.named "thumbnail") = false := by decide

theorem countP_charxMainEntries (a : AssetDesc) (rest : List AssetDesc) :
    (charxMainEntries (a :: rest)).countP charxMainMatch = 1 := by
  unfold charxMainEntries
  rw [List.countP_cons]
  have h0 : (rest.enum.map fun ja =>
      (⟨["assets"], FileStem.suffixed "main" (ja.1 + 1), ja.2.ext⟩ :
        ArchiveEntry)).countP charxMainMatch = 0 := by
    rw [List.countP_eq_zero]
    intro e he
    obtain ⟨⟨j, b⟩, _, rfl⟩ := List.mem_map.mp he
    simp [charxMainMatch, stemHasMainDot]
  rw [h0]
  have hm : charxMainMatch
      ⟨["assets"], FileStem.named "main", a.ext⟩ = true := rfl
  rw [hm]
  rfl

/-- C3: main-icon export asymmetry.  For every canonical card with a main
icon asset, the Voxta archive holds zero entries matching
*/Avatars/*/main.* while the CHARX archive holds exactly one entry
matching assets/*main*. -/
theorem main_icon_export_asymmetry (uuid : String) (d : CanonicalCard)
    (h : d.assets.any isMainIconAsset = true) :
    (buildVoxta uuid d).countP voxtaMainMatch = 0 ∧
    (buildCharx d).countP charxMainMatch = 1 := by
  constructor
  · rw [List.countP_eq_zero]
    intro e he
    simp only [buildVoxta, List.mem_cons] at he
    rcases he with rfl | rfl | he
    · simp [voxtaMainMatch, stemHasMainDot_character]
    · simp [voxtaMainMatch, stemHasMainDot_thumbnail]
    · obtain ⟨ia, _, rfl⟩ := List.mem_map.mp he
      simp [voxtaMainMatch_assetEntry]
  · have hne : d.assets.filter isMainIconAsset ≠ [] := by
      obtain ⟨x, hx, hpx⟩ := List.any_eq_true.mp h
      exact List.ne_nil_of_mem (List.mem_filter.mpr ⟨hx, hpx⟩)
    obtain ⟨a, rest, hf⟩ := List.exists_cons_of_ne_nil hne
    have hoth : ((d.assets.filter fun a2 => !(isMainIconAsset a2)).enum.map
        charxAssetEntry).countP charxMainMatch = 0 := by
      rw [List.countP_eq_zero]
      intro e he
      obtain ⟨ia, _, rfl⟩ := List.mem_map.mp he
      simp [charxMainMatch_assetEntry]
    unfold buildCharx
    rw [List.countP_cons, List.countP_append, hf,
      countP_charxMainEntries a rest, hoth]
    decide

/-- Card for the C3 witness: a main icon plus a background and a second
icon. -/
def c3CardW : CanonicalCard :=
  { spec := .v3, name := "A", description := "", personality := "",
    scenario := "", first_mes := "", mes_example := "", creator := "",
    character_version := "", creator_notes := none, system_prompt := none,
    post_history_instructions := none, tags := some [],
    alternate_greetings := none, group_only_greetings := [],
    character_book := none,
    assets := [{ kind := "icon", name := "main", uri := "", ext := "png" },
      { kind := "background", name := "scenery", uri := "", ext := "jpg" },
      { kind := "icon", name := "happy", uri := "", ext := "webp" }],
    creation_date := none, modification_date := none, extensions := [] }

/-- Witness for C3 on a concrete card with a main icon. -/
theorem main_icon_export_asymmetry_witness :
    (buildVoxta "u1" c3CardW).countP voxtaMainMatch = 0 ∧
    (buildCharx c3CardW).countP charxMainMatch = 1 :=
  main_icon_export_asymmetry "u1" c3CardW (by rfl)

end CardArchitect
